import Mathlib

/-!
Verification of the media-server upload/delete/stats core (`server.js`).

The JavaScript handlers are shallowly embedded over `List Char` strings and an
explicit filesystem state.  Node's `path` module (posix flavour), JS string
operations (`String.prototype.replace` with a string pattern replaces only the
first occurrence; `||` treats the empty string as falsy), multer's
type/size validation, and `Buffer.toString('hex')` are modelled by executable
Lean functions.  Filesystem effects are modelled by explicit state passing
plus a trace of attempted filesystem calls.
-/

namespace MediaServer

/-- JS strings are modelled as lists of characters. -/
abbrev Str := List Char

/-! ## Server constants (`server.js` lines 16–24) -/

/-- `STORAGE_DIR = process.env.STORAGE_DIR || '/data/uploads'` (default value). -/
def STORAGE_DIR : Str := "/data/uploads".toList

/-- `FOLDERS = ['avatars', 'news', 'store', 'sliders', 'videos', 'general']`. -/
def FOLDERS : List Str :=
  ["avatars".toList, "news".toList, "store".toList, "sliders".toList,
   "videos".toList, "general".toList]

/-- `IMAGE_TYPES`. -/
def IMAGE_TYPES : List Str :=
  ["image/jpeg".toList, "image/png".toList, "image/gif".toList,
   "image/webp".toList, "image/svg+xml".toList]

/-- `VIDEO_TYPES`. -/
def VIDEO_TYPES : List Str :=
  ["video/mp4".toList, "video/webm".toList, "video/quicktime".toList,
   "video/x-msvideo".toList]

/-- `ALLOWED_TYPES = [...IMAGE_TYPES, ...VIDEO_TYPES]`. -/
def ALLOWED_TYPES : List Str := IMAGE_TYPES ++ VIDEO_TYPES

/-- multer `limits.fileSize = 50 * 1024 * 1024`. -/
def MAX_FILE_SIZE : Nat := 50 * 1024 * 1024

/-- The public mount of the static middleware, `'/uploads/'`. -/
def uploadsPat : Str := "/uploads/".toList

/-! ## JS string semantics -/

/-- JS `a || b` for strings: the empty string is falsy. -/
def jsOrStr (a b : Str) : Str := if a = [] then b else a

/-- JS `a || b` where `a`, `b` may be `undefined` (`none`) or a string;
the result is the first truthy value (`none` models a falsy final value). -/
def jsValOr (a b : Option Str) : Option Str :=
  match a with
  | some s => if s = [] then b else some s
  | none => b

/-- Splits `s` at the first occurrence of `p`: returns the part before and
the part after the occurrence, or `none` if `p` does not occur in `s`. -/
def splitFirst (s p : Str) : Option (Str × Str) :=
  if p.isPrefixOf s then some ([], s.drop p.length)
  else
    match s with
    | [] => none
    | c :: rest =>
      match splitFirst rest p with
      | some (b, a) => some (c :: b, a)
      | none => none

/-- JS `s.replace(p, r)` with a string pattern: replaces only the first
occurrence of `p`, and returns `s` unchanged if `p` does not occur. -/
def replaceFirst (s p r : Str) : Str :=
  match splitFirst s p with
  | some (b, a) => b ++ r ++ a
  | none => s

/-- JS `s.toLowerCase()` (ASCII fragment). -/
def toLowerStr (s : Str) : Str := s.map Char.toLower

/-- JS `s.startsWith(p)`. -/
def startsWithStr (s p : Str) : Bool := p.isPrefixOf s

/-! ## Node `path` module (posix) -/

/-- Splits a path into segments at `'/'`. -/
def splitSlash : Str → List Str
  | [] => [[]]
  | c :: rest =>
    match splitSlash rest with
    | [] => [[]]
    | seg :: segs => if c = '/' then [] :: seg :: segs else (c :: seg) :: segs

/-- Normalization of the segments of an absolute path: empty and `.` segments
are dropped, `..` pops the previous segment (at the root it is a no-op). -/
def normStack (acc : List Str) : List Str → List Str
  | [] => acc
  | seg :: rest =>
    if seg = [] then normStack acc rest
    else if seg = ['.'] then normStack acc rest
    else if seg = ['.', '.'] then normStack acc.dropLast rest
    else normStack (acc ++ [seg]) rest

/-- Node `path.resolve(p)` for an absolute `p`: normalizes the path,
resolving `.` and `..` segments and collapsing slashes. -/
def pathResolve (p : Str) : Str :=
  '/' :: List.intercalate ['/'] (normStack [] (splitSlash p))

/-- Node `path.join(a, b)` for an absolute `a`: joins with `'/'` and
normalizes. -/
def pathJoin (a b : Str) : Str := pathResolve (a ++ '/' :: b)

/-- Node `path.join(a, b, c)` for an absolute `a`. -/
def pathJoin3 (a b c : Str) : Str := pathJoin a (b ++ '/' :: c)

/-- The component of `p` after the last `'/'`. -/
def lastComponent (p : Str) : Str := (p.reverse.takeWhile (fun c => c ≠ '/')).reverse

/-- Node `path.extname(p)`: the suffix of the basename from its last dot;
empty when the basename has no dot, starts with its only dot, or is `..`. -/
def extname (p : Str) : Str :=
  let base := lastComponent p
  let afterDotRev := base.reverse.takeWhile (fun c => c ≠ '.')
  if afterDotRev.length = base.length then []
  else if afterDotRev.length + 1 = base.length then []
  else if base = ['.', '.'] then []
  else base.drop (base.length - afterDotRev.length - 1)

/-! ## Hex identifiers (`generateId`, lines 84–86) -/

/-- Node `Buffer.toString('hex')`: two lowercase hex digits per byte. -/
def bytesToHex : List Nat → Str
  | [] => []
  | b :: rest => Nat.digitChar (b / 16) :: Nat.digitChar (b % 16) :: bytesToHex rest

/-- `generateId()` returns `crypto.randomBytes(16).toString('hex')`; the 16
random bytes drawn from the CSPRNG are the explicit argument `rb`. -/
def generateId (rb : List Nat) : Str := bytesToHex rb

/-- Membership in the lowercase hexadecimal alphabet. -/
def isLowerHexDigit (c : Char) : Bool := "0123456789abcdef".toList.contains c

/-- "Inside the storage-root subtree": equal to the root, or the root plus a
path separator is a prefix (the spec's required containment notion). -/
def inSubtree (root p : Str) : Bool := p == root || (root ++ ['/']).isPrefixOf p

/-! ## Filesystem model -/

/-- Filesystem state: the set of existing directories and a flat association
list of regular files (absolute path, content bytes). -/
structure FsState where
  dirs : List Str
  files : List (Str × List Nat)
deriving DecidableEq

/-- A filesystem call attempted by a handler (the trace element). -/
inductive FsOp where
  /-- `fs.writeFileSync(p, data)` -/
  | write (p : Str) (data : List Nat)
  /-- a rename of a temporary file into place (never emitted by this code) -/
  | rename (src dst : Str)
  /-- `fs.statSync(p)` -/
  | stat (p : Str)
  /-- `fs.existsSync(p)` -/
  | existsCheck (p : Str)
  /-- `fs.unlinkSync(p)` -/
  | unlink (p : Str)
deriving DecidableEq

/-- Whether an operation is a rename. -/
def FsOp.isRename : FsOp → Bool
  | .rename _ _ => true
  | _ => false

/-- `fs.existsSync` on a regular file path. -/
def existsFile (s : FsState) (p : Str) : Bool := (s.files.lookup p).isSome

/-- `fs.writeFileSync`: creates or overwrites the file at `p`. -/
def writeFile (s : FsState) (p : Str) (data : List Nat) : FsState :=
  { s with files := (p, data) :: s.files.filter (fun e => !(e.1 == p)) }

/-- `fs.unlinkSync`. -/
def removeFile (s : FsState) (p : Str) : FsState :=
  { s with files := s.files.filter (fun e => !(e.1 == p)) }

/-- `fs.statSync(p).size`: the on-disk byte length of the file at `p`. -/
def statSize (s : FsState) (p : Str) : Nat :=
  match s.files.lookup p with
  | some d => d.length
  | none => 0

/-! ## Requests and multer (`server.js` lines 71–82) -/

/-- One uploaded multipart file as multer's memory storage presents it. -/
structure FileInput where
  originalname : Str
  mimetype : Str
  buffer : List Nat
deriving DecidableEq

/-- multer's validation of one file: the `fileFilter` rejects a MIME type
outside `ALLOWED_TYPES`, and `limits.fileSize` rejects a payload larger than
50 MiB; either failure surfaces as the `err` argument of the handler, before
the handler body runs. -/
def multerCheck (f : FileInput) : Option Str :=
  if ALLOWED_TYPES.contains f.mimetype then
    if f.buffer.length > MAX_FILE_SIZE then some "File too large".toList
    else none
  else some ("File type not allowed: ".toList ++ f.mimetype)

/-- multer validation of a batch: the first failing file produces the error. -/
def multerCheckAll : List FileInput → Option Str
  | [] => none
  | f :: rest =>
    match multerCheck f with
    | some m => some m
    | none => multerCheckAll rest

/-- `req.body.folder || 'general'` (line 108/158): an absent or empty folder
field falls back to the default folder. -/
def folderOf : Option Str → Str
  | none => "general".toList
  | some f => if f = [] then "general".toList else f

/-- The extension chosen on line 113/165:
`path.extname(originalname).toLowerCase() || '.jpg'`. -/
def chooseExt (originalname : Str) : Str :=
  jsOrStr (toLowerStr (extname originalname)) ".jpg".toList

/-- The destination path computed on lines 113–115/165–167:
`path.join(STORAGE_DIR, folder, generateId() + ext)`. -/
def destPath (folder : Str) (f : FileInput) (rb : List Nat) : Str :=
  pathJoin3 STORAGE_DIR folder (generateId rb ++ chooseExt f.originalname)

/-- The public URL built on line 122/174: `/uploads/<folder>/<filename>`. -/
def mediaUrl (folder filename : Str) : Str :=
  uploadsPat ++ (folder ++ '/' :: filename)

/-! ## Single upload handler (`app.post('/upload')`, lines 97–144) -/

/-- Request to `POST /upload`. -/
structure UploadReq where
  file : Option FileInput
  folder : Option Str

/-- Response of `POST /upload`. -/
inductive UploadResp where
  /-- `res.status(status).json(\x7bsuccess:false, message\x7d)` -/
  | err (status : Nat) (msg : Str)
  /-- `res.json(\x7bsuccess:true, data\x7d)` -/
  | ok (imageUrl url filename folder : Str) (size : Nat)
       (type mimetype originalName : Str)
deriving DecidableEq

/-- Outcome of `POST /upload`: final filesystem state, response, and the
trace of attempted filesystem calls. -/
structure UploadOut where
  state : FsState
  resp : UploadResp
  ops : List FsOp
deriving DecidableEq

/-- The `POST /upload` handler.  `rb` is the 16 random bytes consumed by
`generateId`; `writeOk p` tells whether `fs.writeFileSync` at `p` succeeds
(a failed write throws, is caught, and yields a 500 response). -/
def uploadSingle (s : FsState) (req : UploadReq) (rb : List Nat)
    (writeOk : Str → Bool) : UploadOut :=
  match req.file with
  | none => ⟨s, .err 400 "No file provided".toList, []⟩
  | some f =>
    match multerCheck f with
    | some m => ⟨s, .err 400 m, []⟩
    | none =>
      let folder := folderOf req.folder
      if FOLDERS.contains folder then
        let filename := generateId rb ++ chooseExt f.originalname
        let filePath := destPath folder f rb
        if writeOk filePath then
          let s1 := writeFile s filePath f.buffer
          let size := statSize s1 filePath
          let isVideo := VIDEO_TYPES.contains f.mimetype
          ⟨s1,
           .ok (mediaUrl folder filename) (mediaUrl folder filename)
             filename folder size
             (if isVideo then "video".toList else "image".toList)
             f.mimetype f.originalname,
           [.write filePath f.buffer, .stat filePath]⟩
        else ⟨s, .err 500 "Failed to upload file".toList, [.write filePath f.buffer]⟩
      else ⟨s, .err 400 "Invalid folder".toList, []⟩

/-! ## Multiple upload handler (`app.post('/upload/multiple')`, lines 147–190) -/

/-- One element of the `data` array of `POST /upload/multiple`. -/
structure MultiItem where
  imageUrl : Str
  url : Str
  filename : Str
  size : Nat
  type : Str
  originalName : Str
deriving DecidableEq

/-- Response of `POST /upload/multiple`. -/
inductive MultiResp where
  | err (status : Nat) (msg : Str)
  | ok (results : List MultiItem)
deriving DecidableEq

/-- The `for (const file of req.files)` loop (lines 164–181): writes each
file in turn; a failing `writeFileSync` throws, aborting the loop with the
state reached so far (`none` result means the exception propagated to the
`catch`).  `rbs` supplies the random bytes of each `generateId()` call. -/
def processFiles (folder : Str) (writeOk : Str → Bool) :
    FsState → List FileInput → List (List Nat) → FsState × Option (List MultiItem)
  | s, [], _ => (s, some [])
  | s, f :: rest, rb :: rbs =>
    let filename := generateId rb ++ chooseExt f.originalname
    let filePath := destPath folder f rb
    if writeOk filePath then
      let s1 := writeFile s filePath f.buffer
      let item : MultiItem :=
        ⟨mediaUrl folder filename, mediaUrl folder filename, filename,
         statSize s1 filePath,
         (if VIDEO_TYPES.contains f.mimetype then "video".toList else "image".toList),
         f.originalname⟩
      match processFiles folder writeOk s1 rest rbs with
      | (s2, some items) => (s2, some (item :: items))
      | (s2, none) => (s2, none)
    else (s, none)
  | s, _ :: _, [] => (s, none)

/-- The `POST /upload/multiple` handler.  `upload.array('files', 10)` rejects
more than 10 files; multer's per-file checks reject before the handler body. -/
def uploadMultiple (s : FsState) (files : List FileInput) (folder? : Option Str)
    (rbs : List (List Nat)) (writeOk : Str → Bool) : FsState × MultiResp :=
  if files.length > 10 then (s, .err 400 "Too many files".toList)
  else
    match multerCheckAll files with
    | some m => (s, .err 400 m)
    | none =>
      if files.length = 0 then (s, .err 400 "No files provided".toList)
      else
        let folder := folderOf folder?
        if FOLDERS.contains folder then
          match processFiles folder writeOk s files rbs with
          | (s2, some items) => (s2, .ok items)
          | (s2, none) => (s2, .err 500 "Failed to upload files".toList)
        else (s, .err 400 "Invalid folder".toList)

/-! ## Delete handler (`app.delete('/delete')`, lines 193–219) -/

/-- Response of `DELETE /delete`. -/
inductive DeleteResp where
  | err (status : Nat) (msg : Str)
  /-- `res.json(\x7bsuccess:true, message:'File deleted'\x7d)` -/
  | ok
deriving DecidableEq

/-- Outcome of `DELETE /delete`. -/
structure DeleteOut where
  state : FsState
  resp : DeleteResp
  ops : List FsOp
deriving DecidableEq

/-- The `DELETE /delete` handler.  `const \x7bimageUrl, url\x7d = req.body;
const fileUrl = imageUrl || url;` then the reference is transformed by
`fileUrl.replace('/uploads/', '')`, joined to the root, resolved, and checked
with `resolvedPath.startsWith(path.resolve(STORAGE_DIR))`. -/
def deleteFile (s : FsState) (imageUrl url : Option Str) : DeleteOut :=
  match jsValOr imageUrl url with
  | none => ⟨s, .err 400 "url is required".toList, []⟩
  | some fileUrl =>
    if fileUrl = [] then ⟨s, .err 400 "url is required".toList, []⟩
    else
      let relativePath := replaceFirst fileUrl uploadsPat []
      let filePath := pathJoin STORAGE_DIR relativePath
      let resolvedPath := pathResolve filePath
      if startsWithStr resolvedPath (pathResolve STORAGE_DIR) then
        if existsFile s filePath then
          ⟨removeFile s filePath, .ok, [.existsCheck filePath, .unlink filePath]⟩
        else ⟨s, .ok, [.existsCheck filePath]⟩
      else ⟨s, .err 400 "Invalid path".toList, []⟩

/-! ## Stats handler (`app.get('/stats')`, lines 236–266) -/

/-- Per-folder entry of the stats response. -/
structure FolderStat where
  files : Nat
  size : Nat
deriving DecidableEq

/-- The stats response body. -/
structure StatsData where
  folders : List (Str × FolderStat)
  totalFiles : Nat
  totalSize : Nat
deriving DecidableEq

/-- Whether `p` is a direct entry of directory `dir`: `dir ++ '/'` is a
prefix and the remainder is a nonempty slash-free name. -/
def isEntryOf (dir p : Str) : Bool :=
  (dir ++ ['/']).isPrefixOf p
    && !(p.drop (dir.length + 1)).isEmpty
    && !((p.drop (dir.length + 1)).contains '/')

/-- `fs.readdirSync(dir)`: the names of the direct entries of `dir`. -/
def readdir (s : FsState) (dir : Str) : List Str :=
  s.files.filterMap (fun e =>
    if isEntryOf dir e.1 then some (e.1.drop (dir.length + 1)) else none)

/-- The per-folder body of the `FOLDERS.forEach` loop (lines 242–254):
if the directory exists, list it and sum the per-entry `statSync` sizes,
otherwise report zero files and zero bytes. -/
def statsFolder (s : FsState) (dir : Str) : FolderStat :=
  if s.dirs.contains dir then
    let names := readdir s dir
    ⟨names.length, names.foldl (fun acc n => acc + statSize s (dir ++ '/' :: n)) 0⟩
  else ⟨0, 0⟩

/-- One iteration of the `FOLDERS.forEach` loop: extends `folderStats` and
adds to the running `totalFiles` and `totalSize`. -/
def statsStep (s : FsState) (acc : List (Str × FolderStat) × Nat × Nat)
    (folder : Str) : List (Str × FolderStat) × Nat × Nat :=
  let st := statsFolder s (pathJoin STORAGE_DIR folder)
  (acc.1 ++ [(folder, st)], acc.2.1 + st.files, acc.2.2 + st.size)

/-- The `GET /stats` handler: accumulates per-folder stats and running
totals over `FOLDERS`. -/
def statsHandler (s : FsState) : StatsData :=
  let r := FOLDERS.foldl (statsStep s) ([], 0, 0)
  ⟨r.1, r.2.1, r.2.2⟩

/-! ## Static retrieval of a public URL (`app.use('/uploads', ...)`, line 44) -/

/-- Resolution of a public URL by the static middleware: a URL under the
`/uploads/` mount is served from `STORAGE_DIR`. -/
def resolveStatic (u : Str) : Option Str :=
  if uploadsPat.isPrefixOf u then some (pathJoin STORAGE_DIR (u.drop uploadsPat.length))
  else none

/-! ## Spec-side folder contents (for stats) -/

/-- The files of state `s` lying directly in directory `dir`. -/
def folderEntries (s : FsState) (dir : Str) : List (Str × List Nat) :=
  s.files.filter (fun e => isEntryOf dir e.1)

/-- The number of entries of `dir` in state `s`. -/
def specFolderCount (s : FsState) (dir : Str) : Nat := (folderEntries s dir).length

/-- The summed byte sizes of the entries of `dir` in state `s`. -/
def specFolderBytes (s : FsState) (dir : Str) : Nat :=
  ((folderEntries s dir).map (fun e => e.2.length)).sum

/-! ## Infrastructure lemmas -/

theorem isPrefixOf_exists : ∀ (p s : Str), p.isPrefixOf s = true ↔ ∃ t, s = p ++ t
  | [], s => by simp [List.isPrefixOf]
  | _ :: _, [] => by simp [List.isPrefixOf]
  | a :: as, b :: bs => by
    simp only [List.isPrefixOf, Bool.and_eq_true, beq_iff_eq]
    constructor
    · rintro ⟨rfl, h⟩
      obtain ⟨t, rfl⟩ := (isPrefixOf_exists as bs).1 h
      exact ⟨t, rfl⟩
    · rintro ⟨t, ht⟩
      injection ht with h1 h2
      exact ⟨h1.symm, (isPrefixOf_exists as bs).2 ⟨t, h2⟩⟩

theorem splitFirst_eq_some : ∀ (s p b a : Str), splitFirst s p = some (b, a) →
    s = b ++ p ++ a ∧ ∀ b' a', s = b' ++ p ++ a' → b.length ≤ b'.length := by
  intro s
  induction s with
  | nil =>
    intro p b a h
    by_cases hp : p.isPrefixOf ([] : Str) = true
    · obtain ⟨t, ht⟩ := (isPrefixOf_exists p []).1 hp
      have hpnil : p = [] := by
        cases p with
        | nil => rfl
        | cons c cs => exact absurd ht (by simp)
      subst hpnil
      simp [splitFirst] at h
      obtain ⟨hb, ha⟩ := h
      subst hb; subst ha
      exact ⟨by simp, fun b' a' _ => by simp⟩
    · simp [splitFirst, hp] at h
  | cons c rest ih =>
    intro p b a h
    by_cases hp : p.isPrefixOf (c :: rest) = true
    · obtain ⟨t, ht⟩ := (isPrefixOf_exists p (c :: rest)).1 hp
      rw [splitFirst, if_pos hp] at h
      have hdrop : (c :: rest).drop p.length = t := by
        rw [ht]; exact List.drop_left p t
      rw [hdrop] at h
      injection h with h'
      injection h' with hb ha
      subst hb; subst ha
      refine ⟨by simpa using ht, fun b' a' _ => by simp⟩
    · rw [splitFirst, if_neg hp] at h
      cases hrec : splitFirst rest p with
      | none => rw [hrec] at h; exact absurd h (by simp)
      | some q =>
        obtain ⟨b0, a0⟩ := q
        rw [hrec] at h
        injection h with h'
        injection h' with hb ha
        obtain ⟨hspec, hmin⟩ := ih p b0 a0 hrec
        subst hb; subst ha
        refine ⟨by rw [hspec]; simp, ?_⟩
        intro b' a' hs
        cases b' with
        | nil =>
          exfalso
          apply hp
          exact (isPrefixOf_exists p (c :: rest)).2 ⟨a', by simpa using hs⟩
        | cons c' b0' =>
          injection hs with hc hrest
          simpa using Nat.succ_le_succ (hmin b0' a' (by simpa using hrest))

theorem splitFirst_eq_none : ∀ (s p : Str), splitFirst s p = none →
    ∀ b a, s ≠ b ++ p ++ a := by
  intro s
  induction s with
  | nil =>
    intro p h b a hs
    have hb : b = [] := by cases b with
      | nil => rfl
      | cons x xs => exact absurd hs (by simp)
    subst hb
    have hp : p = [] := by cases p with
      | nil => rfl
      | cons x xs => exact absurd hs (by simp)
    subst hp
    simp [splitFirst, List.isPrefixOf] at h
  | cons c rest ih =>
    intro p h b a hs
    by_cases hp : p.isPrefixOf (c :: rest) = true
    · rw [splitFirst, if_pos hp] at h
      exact absurd h (by simp)
    · rw [splitFirst, if_neg hp] at h
      cases b with
      | nil =>
        exact hp ((isPrefixOf_exists p (c :: rest)).2 ⟨a, by simpa using hs⟩)
      | cons c' b0 =>
        injection hs with hc hrest
        cases hrec : splitFirst rest p with
        | none => exact ih p hrec b0 a hrest
        | some q => rw [hrec] at h; exact absurd h (by simp)

theorem replaceFirst_of_no_occurrence {s p r : Str}
    (h : ∀ b a, s ≠ b ++ p ++ a) : replaceFirst s p r = s := by
  unfold replaceFirst
  cases hrec : splitFirst s p with
  | none => rfl
  | some q =>
    obtain ⟨b, a⟩ := q
    exact absurd (splitFirst_eq_some s p b a hrec).1 (h b a)

theorem lookup_writeFile_self (s : FsState) (p : Str) (d : List Nat) :
    (writeFile s p d).files.lookup p = some d := by
  simp [writeFile, List.lookup]

theorem lookup_filter_erase (l : List (Str × List Nat)) (p q : Str) (h : q ≠ p) :
    (l.filter (fun e => !(e.1 == p))).lookup q = l.lookup q := by
  have hqp : (q == p) = false := by rwa [beq_eq_false_iff_ne]
  induction l with
  | nil => simp
  | cons e t ih =>
    obtain ⟨k, v⟩ := e
    by_cases he : k = p
    · subst he
      simp [List.filter_cons, List.lookup, hqp, ih]
    · have hke : (k == p) = false := by rwa [beq_eq_false_iff_ne]
      by_cases hq : q = k
      · subst hq
        simp [List.filter_cons, hke, List.lookup]
      · have hqk : (q == k) = false := by rwa [beq_eq_false_iff_ne]
        simp [List.filter_cons, hke, List.lookup, hqk, ih]

theorem lookup_writeFile_ne (s : FsState) (p q : Str) (d : List Nat) (h : q ≠ p) :
    (writeFile s p d).files.lookup q = s.files.lookup q := by
  have hq : (q == p) = false := by rwa [beq_eq_false_iff_ne]
  simp [writeFile, List.lookup, hq, lookup_filter_erase s.files p q h]

theorem lookup_mem_nodup : ∀ (l : List (Str × List Nat)) (p : Str) (d : List Nat),
    (p, d) ∈ l → (l.map Prod.fst).Nodup → l.lookup p = some d := by
  intro l
  induction l with
  | nil => intro p d h; exact absurd h (by simp)
  | cons e t ih =>
    intro p d hmem hnd
    rcases List.mem_cons.mp hmem with heq | htail
    · rw [← heq]
      simp [List.lookup]
    · have hne : p ≠ e.1 := by
        intro hpe
        have : e.1 ∈ t.map Prod.fst := by
          rw [← hpe]
          exact List.mem_map_of_mem Prod.fst htail
        exact (List.nodup_cons.mp (by simpa using hnd)).1 this
      have hp : (p == e.1) = false := by rwa [beq_eq_false_iff_ne]
      have : List.lookup p (e :: t) = List.lookup p t := by
        obtain ⟨k, v⟩ := e
        simp only [List.lookup]
        simp only [show (p == k) = false from hp]
      rw [this]
      exact ih p d htail (by simpa using (List.nodup_cons.mp (by simpa using hnd)).2)

theorem foldl_add_map {α : Type} (g : α → Nat) : ∀ (l : List α) (a : Nat),
    l.foldl (fun acc x => acc + g x) a = a + (l.map g).sum
  | [], a => by simp
  | x :: t, a => by
    simp [foldl_add_map g t, Nat.add_assoc]

theorem filterMap_if_eq_map_filter {α β : Type} (q : α → Bool) (g : α → β) :
    ∀ (l : List α),
      l.filterMap (fun x => if q x then some (g x) else none) = (l.filter q).map g
  | [] => by simp
  | x :: t => by
    by_cases hq : q x <;>
      simp [List.filterMap_cons, List.filter_cons, hq, filterMap_if_eq_map_filter q g t]

theorem readdir_eq_map_entries (s : FsState) (dir : Str) :
    readdir s dir = (folderEntries s dir).map (fun e => e.1.drop (dir.length + 1)) := by
  unfold readdir folderEntries
  exact filterMap_if_eq_map_filter (fun e => isEntryOf dir e.1)
    (fun e => e.1.drop (dir.length + 1)) s.files

theorem entry_path_eq {dir p : Str} (h : isEntryOf dir p = true) :
    dir ++ '/' :: p.drop (dir.length + 1) = p := by
  have h1 : (dir ++ ['/']).isPrefixOf p = true := by
    simp only [isEntryOf, Bool.and_eq_true] at h
    exact h.1.1
  obtain ⟨t, rfl⟩ := (isPrefixOf_exists _ _).1 h1
  have hlen : (dir ++ ['/']).length = dir.length + 1 := by simp
  have hdrop : ((dir ++ ['/']) ++ t).drop (dir.length + 1) = t := by
    rw [← hlen]; exact List.drop_left _ t
  rw [hdrop]
  simp

theorem inSubtree_startsWith {root p : Str} (h : inSubtree root p = true) :
    startsWithStr p root = true := by
  simp only [inSubtree, Bool.or_eq_true] at h
  unfold startsWithStr
  rcases h with h1 | h2
  · have : p = root := by simpa using h1
    exact (isPrefixOf_exists root p).2 ⟨[], by simp [this]⟩
  · obtain ⟨t, rfl⟩ := (isPrefixOf_exists _ _).1 h2
    exact (isPrefixOf_exists root _).2 ⟨'/' :: t, by simp⟩

theorem bytesToHex_length : ∀ (xs : List Nat), (bytesToHex xs).length = 2 * xs.length
  | [] => rfl
  | _ :: t => by
    simp [bytesToHex, bytesToHex_length t]
    omega

theorem digitChar_inj_lt : ∀ n < 16, ∀ m < 16, Nat.digitChar n = Nat.digitChar m → n = m := by
  decide

theorem digitChar_hex : ∀ n < 16, isLowerHexDigit (Nat.digitChar n) = true := by
  decide

theorem bytesToHex_inj : ∀ (xs ys : List Nat), (∀ b ∈ xs, b < 256) → (∀ b ∈ ys, b < 256) →
    xs.length = ys.length → bytesToHex xs = bytesToHex ys → xs = ys := by
  intro xs
  induction xs with
  | nil =>
    intro ys _ _ hlen _
    cases ys with
    | nil => rfl
    | cons y t => exact absurd hlen (by simp)
  | cons x tx ih =>
    intro ys hx hy hlen heq
    cases ys with
    | nil => exact absurd hlen (by simp)
    | cons y ty =>
      simp only [bytesToHex] at heq
      injection heq with e1 heq'
      injection heq' with e2 heq''
      have hxb : x < 256 := hx x (by simp)
      have hyb : y < 256 := hy y (by simp)
      have hxd : x / 16 < 16 := by omega
      have hyd : y / 16 < 16 := by omega
      have hxm : x % 16 < 16 := Nat.mod_lt _ (by norm_num)
      have hym : y % 16 < 16 := Nat.mod_lt _ (by norm_num)
      have hdiv : x / 16 = y / 16 := digitChar_inj_lt _ hxd _ hyd e1
      have hmod : x % 16 = y % 16 := digitChar_inj_lt _ hxm _ hym e2
      have hxy : x = y := by omega
      have htl : tx = ty :=
        ih ty (fun b hb => hx b (by simp [hb])) (fun b hb => hy b (by simp [hb]))
          (by simpa using hlen) heq''
      rw [hxy, htl]

theorem bytesToHex_lower_hex : ∀ (xs : List Nat), (∀ b ∈ xs, b < 256) →
    ∀ c ∈ bytesToHex xs, isLowerHexDigit c = true := by
  intro xs
  induction xs with
  | nil => intro _ c hc; exact absurd hc (by simp [bytesToHex])
  | cons x t ih =>
    intro hx c hc
    have hxb : x < 256 := hx x (by simp)
    simp only [bytesToHex, List.mem_cons] at hc
    rcases hc with rfl | hc
    · exact digitChar_hex _ (by omega)
    rcases hc with rfl | hc
    · exact digitChar_hex _ (Nat.mod_lt _ (by norm_num))
    · exact ih (fun b hb => hx b (by simp [hb])) c hc

theorem statsFolder_present (s : FsState) (dir : Str)
    (hd : s.dirs.contains dir = true)
    (hnd : (s.files.map Prod.fst).Nodup) :
    statsFolder s dir = ⟨specFolderCount s dir, specFolderBytes s dir⟩ := by
  have hcount : (readdir s dir).length = specFolderCount s dir := by
    rw [readdir_eq_map_entries]
    simp [specFolderCount]
  have hbytes :
      (readdir s dir).foldl (fun acc n => acc + statSize s (dir ++ '/' :: n)) 0 =
        specFolderBytes s dir := by
    rw [readdir_eq_map_entries, foldl_add_map, List.map_map]
    have hmap :
        (folderEntries s dir).map
            ((fun n => statSize s (dir ++ '/' :: n)) ∘ fun e => e.1.drop (dir.length + 1)) =
          (folderEntries s dir).map (fun e => e.2.length) := by
      apply List.map_congr_left
      intro e he
      obtain ⟨p, d⟩ := e
      have hmemfil := List.mem_filter.mp he
      have hmem : (p, d) ∈ s.files := hmemfil.1
      have hent : isEntryOf dir p = true := by simpa using hmemfil.2
      simp only [Function.comp]
      rw [entry_path_eq hent]
      unfold statSize
      rw [lookup_mem_nodup s.files p d hmem hnd]
    rw [hmap]
    simp [specFolderBytes]
  have hsf : statsFolder s dir =
      ⟨(readdir s dir).length,
       (readdir s dir).foldl (fun acc n => acc + statSize s (dir ++ '/' :: n)) 0⟩ := by
    unfold statsFolder
    rw [if_pos hd]
  rw [hsf, hcount, hbytes]

theorem foldl_statsStep (s : FsState) :
    ∀ (l : List Str) (accL : List (Str × FolderStat)) (aF aS : Nat),
      l.foldl (statsStep s) (accL, aF, aS) =
        (accL ++ l.map (fun fo => (fo, statsFolder s (pathJoin STORAGE_DIR fo))),
         aF + (l.map (fun fo => (statsFolder s (pathJoin STORAGE_DIR fo)).files)).sum,
         aS + (l.map (fun fo => (statsFolder s (pathJoin STORAGE_DIR fo)).size)).sum)
  | [], accL, aF, aS => by simp
  | fo :: t, accL, aF, aS => by
    simp only [List.foldl_cons, statsStep, List.map_cons, List.sum_cons]
    rw [foldl_statsStep s t]
    simp [Nat.add_assoc]

theorem statsHandler_eq (s : FsState) :
    statsHandler s =
      ⟨FOLDERS.map (fun fo => (fo, statsFolder s (pathJoin STORAGE_DIR fo))),
       (FOLDERS.map (fun fo => (statsFolder s (pathJoin STORAGE_DIR fo)).files)).sum,
       (FOLDERS.map (fun fo => (statsFolder s (pathJoin STORAGE_DIR fo)).size)).sum⟩ := by
  unfold statsHandler
  rw [foldl_statsStep]
  simp

theorem lookup_map_pairs {β : Type} (h : Str → β) :
    ∀ (l : List Str), l.Nodup → ∀ fo ∈ l,
      (l.map (fun x => (x, h x))).lookup fo = some (h fo) := by
  intro l
  induction l with
  | nil => intro _ fo hfo; exact absurd hfo (by simp)
  | cons x t ih =>
    intro hnd fo hfo
    rcases List.mem_cons.mp hfo with rfl | htail
    · simp [List.lookup]
    · have hne : fo ≠ x := by
        intro hfx
        exact (List.nodup_cons.mp hnd).1 (hfx ▸ htail)
      have hfx : (fo == x) = false := by rwa [beq_eq_false_iff_ne]
      simp only [List.map_cons, List.lookup, hfx]
      exact ih (List.nodup_cons.mp hnd).2 fo htail

/-! ## The state reached by a batch of successful writes (spec side for C2) -/

/-- The filesystem state after writing every file of the list, each with its
random bytes, into `folder`. -/
def writeAll (folder : Str) : FsState → List (FileInput × List Nat) → FsState
  | s, [] => s
  | s, (f, rb) :: rest => writeAll folder (writeFile s (destPath folder f rb) f.buffer) rest

theorem processFiles_fail (folder : Str) (writeOk : Str → Bool) :
    ∀ (pre : List FileInput) (rbsPre : List (List Nat)) (s : FsState)
      (f : FileInput) (rb : List Nat) (post : List FileInput) (rbsPost : List (List Nat)),
      pre.length = rbsPre.length →
      (∀ q ∈ pre.zip rbsPre, writeOk (destPath folder q.1 q.2) = true) →
      writeOk (destPath folder f rb) = false →
      processFiles folder writeOk s (pre ++ f :: post) (rbsPre ++ rb :: rbsPost) =
        (writeAll folder s (pre.zip rbsPre), none) := by
  intro pre
  induction pre with
  | nil =>
    intro rbsPre s f rb post rbsPost hlen _ hfail
    have : rbsPre = [] := by
      cases rbsPre with
      | nil => rfl
      | cons x xs => exact absurd hlen (by simp)
    subst this
    simp [processFiles, hfail, writeAll]
  | cons g pt ih =>
    intro rbsPre s f rb post rbsPost hlen hok hfail
    cases rbsPre with
    | nil => exact absurd hlen (by simp)
    | cons rbg rt =>
      have hokg : writeOk (destPath folder g rbg) = true := hok (g, rbg) (by simp)
      simp only [List.cons_append, processFiles]
      rw [if_pos hokg]
      have hrec := ih rt (writeFile s (destPath folder g rbg) g.buffer) f rb post rbsPost
        (by simpa using hlen)
        (fun q hq => hok q (by simp [hq]))
        hfail
      simp only [List.append_eq]
      rw [hrec]
      simp [writeAll, List.zip]

theorem lookup_writeAll_other (folder : Str) :
    ∀ (l : List (FileInput × List Nat)) (s : FsState) (p : Str),
      (∀ q ∈ l, destPath folder q.1 q.2 ≠ p) →
      (writeAll folder s l).files.lookup p = s.files.lookup p := by
  intro l
  induction l with
  | nil => intro s p _; rfl
  | cons q t ih =>
    intro s p hne
    obtain ⟨g, rbg⟩ := q
    simp only [writeAll]
    rw [ih _ p (fun q' hq' => hne q' (by simp [hq']))]
    exact lookup_writeFile_ne s (destPath folder g rbg) p g.buffer
      (fun hpe => hne (g, rbg) (by simp) (by rw [hpe]))

theorem lookup_writeAll_of_nodup (folder : Str) :
    ∀ (l : List (FileInput × List Nat)) (s : FsState),
      (l.map (fun q => destPath folder q.1 q.2)).Nodup →
      ∀ q ∈ l, (writeAll folder s l).files.lookup (destPath folder q.1 q.2) = some q.1.buffer := by
  intro l
  induction l with
  | nil => intro s _ q hq; exact absurd hq (by simp)
  | cons q0 t ih =>
    intro s hnd q hq
    obtain ⟨g, rbg⟩ := q0
    rcases List.mem_cons.mp hq with rfl | htail
    · simp only [writeAll]
      rw [lookup_writeAll_other folder t _ _
        (fun q' hq' heq => (List.nodup_cons.mp (by simpa using hnd)).1
          (heq ▸ List.mem_map_of_mem
            (fun (q'' : FileInput × List Nat) => destPath folder q''.1 q''.2) hq'))]
      exact lookup_writeFile_self s _ g.buffer
    · simp only [writeAll]
      exact ih _ (by simpa using (List.nodup_cons.mp (by simpa using hnd)).2) q htail

theorem multerCheckAll_ne_none : ∀ (files : List FileInput) (f : FileInput),
    f ∈ files → multerCheck f ≠ none → multerCheckAll files ≠ none := by
  intro files
  induction files with
  | nil => intro f hf; exact absurd hf (by simp)
  | cons g t ih =>
    intro f hf hbad
    rcases List.mem_cons.mp hf with rfl | htail
    · unfold multerCheckAll
      cases hm : multerCheck f with
      | none => exact absurd hm hbad
      | some m => simp
    · unfold multerCheckAll
      cases hm : multerCheck g with
      | none => exact ih f htail hbad
      | some m => simp

theorem take_append_self {α : Type} : ∀ (a b : List α), (a ++ b).take a.length = a
  | [], _ => rfl
  | x :: t, b => by simp [take_append_self t b]

/-- The filename component of a success response. -/
def UploadResp.filename? : UploadResp → Option Str
  | .ok _ _ fn _ _ _ _ _ => some fn
  | .err _ _ => none

/-- The folder component of a success response. -/
def UploadResp.folder? : UploadResp → Option Str
  | .ok _ _ _ fo _ _ _ _ => some fo
  | .err _ _ => none

theorem chooseExt_eq (n : Str) :
    chooseExt n = (if extname n = [] then ".jpg".toList else toLowerStr (extname n)) := by
  unfold chooseExt jsOrStr
  by_cases h : extname n = []
  · simp [toLowerStr, h]
  · have : toLowerStr (extname n) ≠ [] := by
      simpa [toLowerStr] using h
    rw [if_neg this, if_neg h]

theorem uploadSingle_success (s : FsState) (req : UploadReq) (f : FileInput)
    (rb : List Nat) (writeOk : Str → Bool)
    (hf : req.file = some f) (hm : multerCheck f = none)
    (hfo : FOLDERS.contains (folderOf req.folder) = true)
    (hw : writeOk (destPath (folderOf req.folder) f rb) = true) :
    uploadSingle s req rb writeOk =
      ⟨writeFile s (destPath (folderOf req.folder) f rb) f.buffer,
       .ok (mediaUrl (folderOf req.folder) (generateId rb ++ chooseExt f.originalname))
           (mediaUrl (folderOf req.folder) (generateId rb ++ chooseExt f.originalname))
           (generateId rb ++ chooseExt f.originalname) (folderOf req.folder)
           (statSize (writeFile s (destPath (folderOf req.folder) f rb) f.buffer)
             (destPath (folderOf req.folder) f rb))
           (if VIDEO_TYPES.contains f.mimetype then "video".toList else "image".toList)
           f.mimetype f.originalname,
       [.write (destPath (folderOf req.folder) f rb) f.buffer,
        .stat (destPath (folderOf req.folder) f rb)]⟩ := by
  simp only [uploadSingle, hf, hm, hfo, if_true, hw]

theorem processFiles_new_files (folder : Str) (writeOk : Str → Bool) :
    ∀ (files : List FileInput) (rbs : List (List Nat)) (s : FsState) (p : Str) (d : List Nat),
      (p, d) ∈ (processFiles folder writeOk s files rbs).1.files →
      (p, d) ∈ s.files ∨ ∃ f rb, p = destPath folder f rb := by
  intro files
  induction files with
  | nil => intro rbs s p d h; exact Or.inl (by simpa [processFiles] using h)
  | cons f rest ih =>
    intro rbs s p d h
    cases rbs with
    | nil => exact Or.inl (by simpa [processFiles] using h)
    | cons rb rbs' =>
      by_cases hw : writeOk (destPath folder f rb) = true
      · have hred : (processFiles folder writeOk s (f :: rest) (rb :: rbs')).1 =
            (processFiles folder writeOk
              (writeFile s (destPath folder f rb) f.buffer) rest rbs').1 := by
          simp only [processFiles, hw, if_true]
          cases hrec : processFiles folder writeOk
              (writeFile s (destPath folder f rb) f.buffer) rest rbs' with
          | mk s2 r =>
            cases r with
            | some items => simp
            | none => simp
        rw [hred] at h
        rcases ih rbs' (writeFile s (destPath folder f rb) f.buffer) p d h with hmem | hnew
        · simp only [writeFile, List.mem_cons] at hmem
          rcases hmem with heq | hfil
          · right
            exact ⟨f, rb, by rw [Prod.mk.injEq] at heq; exact heq.1⟩
          · exact Or.inl (List.mem_of_mem_filter hfil)
        · exact Or.inr hnew
      · have hred : (processFiles folder writeOk s (f :: rest) (rb :: rbs')).1 = s := by
          simp only [processFiles]
          rw [if_neg hw]
        rw [hred] at h
        exact Or.inl h

/-! ## Claim theorems -/

/-- A filesystem state holding one file inside the sibling directory
`/data/uploads-evil`, outside the storage root. -/
def siblingState : FsState :=
  ⟨[], [("/data/uploads-evil/x".toList, [1, 2, 3])]⟩

/-- **C1** (code bug).  For the delete reference `/uploads/../uploads-evil/x`,
stripping the public prefix and joining to the storage root canonicalizes to
`/data/uploads-evil/x`, a sibling directory outside the storage-root subtree;
the claim requires the operation to be rejected with no filesystem call, but
the handler's naive `resolvedPath.startsWith(path.resolve(STORAGE_DIR))`
comparison accepts the sibling path, performs the existence check and the
unlink (deleting the sibling-directory file), and returns success. -/
theorem c1_sibling_escape_not_rejected :
    inSubtree (pathResolve STORAGE_DIR)
      (pathResolve (pathJoin STORAGE_DIR
        (replaceFirst "/uploads/../uploads-evil/x".toList uploadsPat []))) = false ∧
    deleteFile siblingState (some "/uploads/../uploads-evil/x".toList) none =
      ⟨⟨[], []⟩, .ok,
       [.existsCheck "/data/uploads-evil/x".toList,
        .unlink "/data/uploads-evil/x".toList]⟩ := by
  decide

/-- A filesystem state holding one stored object under `avatars`. -/
def avatarState : FsState := ⟨[], [("/data/uploads/avatars/x.jpg".toList, [1])]⟩

/-- **C10**: the delete reference transformation removes only the first
occurrence of `/uploads/` (the part before the earliest occurrence and the
part after it are concatenated, and no shorter prefix contains an
occurrence); a reference with no occurrence is passed through unchanged; and
a reference lacking the canonical prefix, such as `avatars/x.jpg`, is still
accepted and deletes the stored object. -/
theorem c10_reference_transformation :
    (∀ (r : Str), (∀ b a, r ≠ b ++ uploadsPat ++ a) → replaceFirst r uploadsPat [] = r)
    ∧ (∀ (r b a : Str), r = b ++ uploadsPat ++ a →
        ∃ b0 a0, r = b0 ++ uploadsPat ++ a0 ∧ replaceFirst r uploadsPat [] = b0 ++ a0 ∧
          ∀ b' a', r = b' ++ uploadsPat ++ a' → b0.length ≤ b'.length)
    ∧ deleteFile avatarState (some "avatars/x.jpg".toList) none =
        ⟨⟨[], []⟩, .ok,
         [.existsCheck "/data/uploads/avatars/x.jpg".toList,
          .unlink "/data/uploads/avatars/x.jpg".toList]⟩ := by
  refine ⟨?_, ?_, by decide⟩
  · intro r h
    exact replaceFirst_of_no_occurrence h
  · intro r b a hr
    cases hsf : splitFirst r uploadsPat with
    | none => exact absurd hr (splitFirst_eq_none r uploadsPat hsf b a)
    | some q =>
      obtain ⟨b0, a0⟩ := q
      obtain ⟨hspec, hmin⟩ := splitFirst_eq_some r uploadsPat b0 a0 hsf
      refine ⟨b0, a0, hspec, ?_, hmin⟩
      unfold replaceFirst
      rw [hsf]
      simp

/-- Witness for C10 at the concrete reference `x/uploads/a/uploads/b`. -/
theorem c10_witness :
    ∃ b0 a0, ("x/uploads/a/uploads/b".toList : Str) = b0 ++ uploadsPat ++ a0 ∧
      replaceFirst "x/uploads/a/uploads/b".toList uploadsPat [] = b0 ++ a0 ∧
      ∀ b' a', ("x/uploads/a/uploads/b".toList : Str) = b' ++ uploadsPat ++ a' →
        b0.length ≤ b'.length :=
  c10_reference_transformation.2.1 "x/uploads/a/uploads/b".toList
    "x".toList "a/uploads/b".toList (by decide)

/-- **C7**: a delete whose reference resolves inside the storage root to a
file that does not exist returns success, makes only the existence check
(no unlink), and leaves the filesystem unchanged; repeating the same delete
returns the same success result (idempotence). -/
theorem c7_delete_missing_idempotent (s : FsState) (u : Str) (hu : u ≠ [])
    (hin : inSubtree (pathResolve STORAGE_DIR)
      (pathResolve (pathJoin STORAGE_DIR (replaceFirst u uploadsPat []))) = true)
    (habs : s.files.lookup (pathJoin STORAGE_DIR (replaceFirst u uploadsPat [])) = none) :
    deleteFile s (some u) none =
      ⟨s, .ok, [.existsCheck (pathJoin STORAGE_DIR (replaceFirst u uploadsPat []))]⟩ ∧
    deleteFile (deleteFile s (some u) none).state (some u) none =
      ⟨s, .ok, [.existsCheck (pathJoin STORAGE_DIR (replaceFirst u uploadsPat []))]⟩ := by
  have hsw := inSubtree_startsWith hin
  have hex : existsFile s (pathJoin STORAGE_DIR (replaceFirst u uploadsPat [])) = false := by
    simp [existsFile, habs]
  have h1 : deleteFile s (some u) none =
      ⟨s, .ok, [.existsCheck (pathJoin STORAGE_DIR (replaceFirst u uploadsPat []))]⟩ := by
    simp only [deleteFile, jsValOr, hu, if_neg, if_false]
    simp [hsw, hex]
  refine ⟨h1, ?_⟩
  rw [h1]
  exact h1

/-- Witness for C7: deleting `/uploads/general/zzz.jpg` from the empty
filesystem state. -/
theorem c7_witness :
    (("/uploads/general/zzz.jpg".toList : Str) ≠ []) ∧
    inSubtree (pathResolve STORAGE_DIR)
      (pathResolve (pathJoin STORAGE_DIR
        (replaceFirst "/uploads/general/zzz.jpg".toList uploadsPat []))) = true ∧
    (deleteFile (⟨[], []⟩ : FsState) (some "/uploads/general/zzz.jpg".toList) none =
      ⟨⟨[], []⟩, .ok,
       [.existsCheck (pathJoin STORAGE_DIR
         (replaceFirst "/uploads/general/zzz.jpg".toList uploadsPat []))]⟩ ∧
     deleteFile (deleteFile (⟨[], []⟩ : FsState)
         (some "/uploads/general/zzz.jpg".toList) none).state
         (some "/uploads/general/zzz.jpg".toList) none =
      ⟨⟨[], []⟩, .ok,
       [.existsCheck (pathJoin STORAGE_DIR
         (replaceFirst "/uploads/general/zzz.jpg".toList uploadsPat []))]⟩) :=
  ⟨by decide, by decide,
   c7_delete_missing_idempotent ⟨[], []⟩ "/uploads/general/zzz.jpg".toList
     (by decide) (by decide) (by decide)⟩

/-- **C5**: an upload whose declared MIME type is outside `ALLOWED_TYPES`, or
whose payload exceeds the 50 MiB ceiling, is rejected with a 400 response and
no filesystem call: the state is unchanged, so no file appears under the
storage root.  This holds for the single handler and, when any file of the
batch is invalid, for the multiple handler. -/
theorem c5_validation_rejects_before_write :
    (∀ (s : FsState) (req : UploadReq) (f : FileInput) (rb : List Nat)
        (writeOk : Str → Bool),
      req.file = some f →
      (ALLOWED_TYPES.contains f.mimetype = false ∨ f.buffer.length > MAX_FILE_SIZE) →
      (uploadSingle s req rb writeOk).state = s ∧
      (uploadSingle s req rb writeOk).ops = [] ∧
      ∃ m, (uploadSingle s req rb writeOk).resp = .err 400 m)
    ∧ (∀ (s : FsState) (files : List FileInput) (folder? : Option Str)
        (rbs : List (List Nat)) (writeOk : Str → Bool) (f : FileInput),
      f ∈ files →
      (ALLOWED_TYPES.contains f.mimetype = false ∨ f.buffer.length > MAX_FILE_SIZE) →
      (uploadMultiple s files folder? rbs writeOk).1 = s ∧
      ∃ m, (uploadMultiple s files folder? rbs writeOk).2 = .err 400 m) := by
  have hbadCheck : ∀ (f : FileInput),
      (ALLOWED_TYPES.contains f.mimetype = false ∨ f.buffer.length > MAX_FILE_SIZE) →
      ∃ m, multerCheck f = some m := by
    intro f hbad
    rcases hbad with hb | hb
    · have hb' : f.mimetype ∉ ALLOWED_TYPES := by simpa using hb
      exact ⟨"File type not allowed: ".toList ++ f.mimetype, by simp [multerCheck, hb']⟩
    · by_cases hc : f.mimetype ∈ ALLOWED_TYPES
      · exact ⟨"File too large".toList, by simp [multerCheck, hc, hb]⟩
      · exact ⟨"File type not allowed: ".toList ++ f.mimetype, by simp [multerCheck, hc]⟩
  constructor
  · intro s req f rb writeOk hf hbad
    obtain ⟨m, hm⟩ := hbadCheck f hbad
    refine ⟨?_, ?_, m, ?_⟩ <;> simp [uploadSingle, hf, hm]
  · intro s files folder? rbs writeOk f hf hbad
    by_cases hlen : files.length > 10
    · refine ⟨?_, "Too many files".toList, ?_⟩ <;> simp [uploadMultiple, hlen]
    · obtain ⟨m0, hm0⟩ := hbadCheck f hbad
      have hall : multerCheckAll files ≠ none :=
        multerCheckAll_ne_none files f hf (by simp [hm0])
      obtain ⟨m, hm⟩ : ∃ m, multerCheckAll files = some m := by
        cases h : multerCheckAll files with
        | none => exact absurd h hall
        | some m => exact ⟨m, rfl⟩
      refine ⟨?_, m, ?_⟩ <;> simp [uploadMultiple, hlen, hm]

/-- Witness for C5: a `text/plain` upload is rejected without touching the
state, both singly and in a batch. -/
theorem c5_witness :
    ((⟨some ⟨"a.txt".toList, "text/plain".toList, [1]⟩, none⟩ : UploadReq).file =
        some ⟨"a.txt".toList, "text/plain".toList, [1]⟩) ∧
    (ALLOWED_TYPES.contains ("text/plain".toList) = false ∨
      ([1] : List Nat).length > MAX_FILE_SIZE) ∧
    ((uploadSingle ⟨[], []⟩ ⟨some ⟨"a.txt".toList, "text/plain".toList, [1]⟩, none⟩
        (List.replicate 16 0) (fun _ => true)).state = (⟨[], []⟩ : FsState) ∧
     (uploadSingle ⟨[], []⟩ ⟨some ⟨"a.txt".toList, "text/plain".toList, [1]⟩, none⟩
        (List.replicate 16 0) (fun _ => true)).ops = [] ∧
     ∃ m, (uploadSingle ⟨[], []⟩ ⟨some ⟨"a.txt".toList, "text/plain".toList, [1]⟩, none⟩
        (List.replicate 16 0) (fun _ => true)).resp = .err 400 m) :=
  ⟨rfl, by decide,
   c5_validation_rejects_before_write.1 ⟨[], []⟩
     ⟨some ⟨"a.txt".toList, "text/plain".toList, [1]⟩, none⟩
     ⟨"a.txt".toList, "text/plain".toList, [1]⟩
     (List.replicate 16 0) (fun _ => true) rfl (by decide)⟩

/-- **C8**: `generateId` renders its 16 cryptographically random bytes as a
fixed-length (32-character) lowercase hexadecimal string; the rendering is
injective on 16-byte inputs (so the full 128 bits of entropy are preserved);
and in a successful upload the stored filename is the generated identifier
followed by the chosen extension, whose first 32 characters equal
`generateId rb` for every client-supplied original filename — the identifier
is never derived from the client's filename, only the extension is. -/
theorem c8_identifier_generation :
    (∀ (rb : List Nat), rb.length = 16 → (∀ b ∈ rb, b < 256) →
      (generateId rb).length = 32 ∧ ∀ c ∈ generateId rb, isLowerHexDigit c = true)
    ∧ (∀ (rb1 rb2 : List Nat), rb1.length = 16 → rb2.length = 16 →
        (∀ b ∈ rb1, b < 256) → (∀ b ∈ rb2, b < 256) →
        generateId rb1 = generateId rb2 → rb1 = rb2)
    ∧ (∀ (s : FsState) (req : UploadReq) (f : FileInput) (rb : List Nat)
        (writeOk : Str → Bool),
      req.file = some f → multerCheck f = none →
      FOLDERS.contains (folderOf req.folder) = true →
      writeOk (destPath (folderOf req.folder) f rb) = true →
      rb.length = 16 →
      (uploadSingle s req rb writeOk).resp.filename? =
        some (generateId rb ++ chooseExt f.originalname) ∧
      (generateId rb ++ chooseExt f.originalname).take 32 = generateId rb) := by
  refine ⟨?_, ?_, ?_⟩
  · intro rb h16 hbytes
    constructor
    · rw [generateId, bytesToHex_length, h16]
    · exact bytesToHex_lower_hex rb hbytes
  · intro rb1 rb2 h1 h2 hb1 hb2 heq
    exact bytesToHex_inj rb1 rb2 hb1 hb2 (by rw [h1, h2]) heq
  · intro s req f rb writeOk hf hm hfo hw h16
    have hlen32 : (generateId rb).length = 32 := by
      rw [generateId, bytesToHex_length, h16]
    constructor
    · rw [uploadSingle_success s req f rb writeOk hf hm hfo hw]
      rfl
    · rw [← hlen32]
      exact take_append_self _ _

/-- Witness for C8: the all-zero and one-differing 16-byte inputs, and a
concrete successful upload. -/
theorem c8_witness :
    ((generateId (List.replicate 16 0)).length = 32 ∧
      ∀ c ∈ generateId (List.replicate 16 0), isLowerHexDigit c = true) ∧
    (generateId (List.replicate 16 0) = generateId (List.replicate 16 0) →
      List.replicate 16 0 = List.replicate 16 (0 : Nat)) ∧
    ((uploadSingle ⟨[], []⟩ ⟨some ⟨"photo.PNG".toList, "image/png".toList, [5]⟩, none⟩
        (List.replicate 16 0) (fun _ => true)).resp.filename? =
      some (generateId (List.replicate 16 0) ++ chooseExt "photo.PNG".toList) ∧
     (generateId (List.replicate 16 0) ++ chooseExt "photo.PNG".toList).take 32 =
      generateId (List.replicate 16 0)) :=
  ⟨c8_identifier_generation.1 (List.replicate 16 0) (by decide) (by decide),
   c8_identifier_generation.2.1 (List.replicate 16 0) (List.replicate 16 0)
     (by decide) (by decide) (by decide) (by decide),
   c8_identifier_generation.2.2 ⟨[], []⟩
     ⟨some ⟨"photo.PNG".toList, "image/png".toList, [5]⟩, none⟩
     ⟨"photo.PNG".toList, "image/png".toList, [5]⟩
     (List.replicate 16 0) (fun _ => true) rfl (by decide) (by decide)
     (by decide) (by decide)⟩

/-- **C4**: a valid passthrough upload stores exactly the received bytes at
the destination path; the chosen extension is the lowercased extension of the
client's original filename, defaulting to `.jpg` when there is none; the
response carries the public URL twice, the filename, the folder, and a size
read back from the filesystem; the returned URL resolves through the static
mount to exactly the written file; and the reported size equals the on-disk
size of that file, which equals the received byte count. -/
theorem c4_passthrough_upload_exact (s : FsState) (req : UploadReq) (f : FileInput)
    (rb : List Nat) (writeOk : Str → Bool)
    (hf : req.file = some f) (hm : multerCheck f = none)
    (hfo : FOLDERS.contains (folderOf req.folder) = true)
    (hw : writeOk (destPath (folderOf req.folder) f rb) = true) :
    (uploadSingle s req rb writeOk).state.files.lookup
      (destPath (folderOf req.folder) f rb) = some f.buffer ∧
    chooseExt f.originalname =
      (if extname f.originalname = [] then ".jpg".toList
       else toLowerStr (extname f.originalname)) ∧
    (uploadSingle s req rb writeOk).resp =
      .ok (mediaUrl (folderOf req.folder) (generateId rb ++ chooseExt f.originalname))
          (mediaUrl (folderOf req.folder) (generateId rb ++ chooseExt f.originalname))
          (generateId rb ++ chooseExt f.originalname) (folderOf req.folder)
          (statSize (uploadSingle s req rb writeOk).state
            (destPath (folderOf req.folder) f rb))
          (if VIDEO_TYPES.contains f.mimetype then "video".toList else "image".toList)
          f.mimetype f.originalname ∧
    resolveStatic (mediaUrl (folderOf req.folder) (generateId rb ++ chooseExt f.originalname)) =
      some (destPath (folderOf req.folder) f rb) ∧
    statSize (uploadSingle s req rb writeOk).state (destPath (folderOf req.folder) f rb) =
      f.buffer.length := by
  have hout := uploadSingle_success s req f rb writeOk hf hm hfo hw
  refine ⟨?_, chooseExt_eq f.originalname, ?_, ?_, ?_⟩
  · rw [hout]
    exact lookup_writeFile_self s _ f.buffer
  · rw [hout]
  · unfold resolveStatic mediaUrl
    have hpre : uploadsPat.isPrefixOf
        (uploadsPat ++ ((folderOf req.folder) ++ '/' ::
          (generateId rb ++ chooseExt f.originalname))) = true :=
      (isPrefixOf_exists _ _).2 ⟨_, rfl⟩
    rw [if_pos hpre, List.drop_left]
    rfl
  · rw [hout]
    unfold statSize
    rw [lookup_writeFile_self]

/-- Witness for C4: a concrete `image/jpeg` upload of two bytes. -/
theorem c4_witness :
    ((⟨some ⟨"p.JPG".toList, "image/jpeg".toList, [10, 20]⟩, some "avatars".toList⟩ :
        UploadReq).file = some ⟨"p.JPG".toList, "image/jpeg".toList, [10, 20]⟩) ∧
    multerCheck ⟨"p.JPG".toList, "image/jpeg".toList, [10, 20]⟩ = none ∧
    ((uploadSingle ⟨[], []⟩
        ⟨some ⟨"p.JPG".toList, "image/jpeg".toList, [10, 20]⟩, some "avatars".toList⟩
        (List.replicate 16 255) (fun _ => true)).state.files.lookup
          (destPath (folderOf (some "avatars".toList))
            ⟨"p.JPG".toList, "image/jpeg".toList, [10, 20]⟩ (List.replicate 16 255)) =
        some [10, 20] ∧
      chooseExt "p.JPG".toList =
        (if extname "p.JPG".toList = [] then ".jpg".toList
         else toLowerStr (extname "p.JPG".toList)) ∧
      (uploadSingle ⟨[], []⟩
        ⟨some ⟨"p.JPG".toList, "image/jpeg".toList, [10, 20]⟩, some "avatars".toList⟩
        (List.replicate 16 255) (fun _ => true)).resp =
        .ok (mediaUrl (folderOf (some "avatars".toList))
              (generateId (List.replicate 16 255) ++ chooseExt "p.JPG".toList))
            (mediaUrl (folderOf (some "avatars".toList))
              (generateId (List.replicate 16 255) ++ chooseExt "p.JPG".toList))
            (generateId (List.replicate 16 255) ++ chooseExt "p.JPG".toList)
            (folderOf (some "avatars".toList))
            (statSize (uploadSingle ⟨[], []⟩
              ⟨some ⟨"p.JPG".toList, "image/jpeg".toList, [10, 20]⟩, some "avatars".toList⟩
              (List.replicate 16 255) (fun _ => true)).state
              (destPath (folderOf (some "avatars".toList))
                ⟨"p.JPG".toList, "image/jpeg".toList, [10, 20]⟩ (List.replicate 16 255)))
            (if VIDEO_TYPES.contains "image/jpeg".toList then "video".toList
             else "image".toList)
            "image/jpeg".toList "p.JPG".toList ∧
      resolveStatic (mediaUrl (folderOf (some "avatars".toList))
          (generateId (List.replicate 16 255) ++ chooseExt "p.JPG".toList)) =
        some (destPath (folderOf (some "avatars".toList))
          ⟨"p.JPG".toList, "image/jpeg".toList, [10, 20]⟩ (List.replicate 16 255)) ∧
      statSize (uploadSingle ⟨[], []⟩
          ⟨some ⟨"p.JPG".toList, "image/jpeg".toList, [10, 20]⟩, some "avatars".toList⟩
          (List.replicate 16 255) (fun _ => true)).state
        (destPath (folderOf (some "avatars".toList))
          ⟨"p.JPG".toList, "image/jpeg".toList, [10, 20]⟩ (List.replicate 16 255)) =
        ([10, 20] : List Nat).length) :=
  ⟨rfl, by decide,
   c4_passthrough_upload_exact ⟨[], []⟩
     ⟨some ⟨"p.JPG".toList, "image/jpeg".toList, [10, 20]⟩, some "avatars".toList⟩
     ⟨"p.JPG".toList, "image/jpeg".toList, [10, 20]⟩
     (List.replicate 16 255) (fun _ => true) rfl (by decide) (by decide) (by decide)⟩

/-- **C6**: folders are confined to the fixed taxonomy.  (1) A single upload
naming a (nonempty) folder outside `FOLDERS` is rejected with 400 before any
write; (2) a single upload omitting the folder field is filed under
`general`; (3) any file the single handler adds lies at a destination path of
a taxonomy folder; (4) a multiple upload naming an unknown folder is rejected
with 400 before any write; (5) any file the multiple handler adds when the
folder is omitted lies under `general`. -/
theorem c6_folder_taxonomy :
    (∀ (s : FsState) (file? : Option FileInput) (fo : Str) (rb : List Nat)
        (writeOk : Str → Bool),
      fo ≠ [] → FOLDERS.contains fo = false →
      (uploadSingle s ⟨file?, some fo⟩ rb writeOk).state = s ∧
      (uploadSingle s ⟨file?, some fo⟩ rb writeOk).ops = [] ∧
      ∃ m, (uploadSingle s ⟨file?, some fo⟩ rb writeOk).resp = .err 400 m)
    ∧ (∀ (s : FsState) (f : FileInput) (rb : List Nat) (writeOk : Str → Bool),
      multerCheck f = none → writeOk (destPath "general".toList f rb) = true →
      (uploadSingle s ⟨some f, none⟩ rb writeOk).state =
        writeFile s (destPath "general".toList f rb) f.buffer ∧
      (uploadSingle s ⟨some f, none⟩ rb writeOk).resp.folder? = some "general".toList)
    ∧ (∀ (s : FsState) (req : UploadReq) (rb : List Nat) (writeOk : Str → Bool)
        (p : Str) (d : List Nat),
      (p, d) ∈ (uploadSingle s req rb writeOk).state.files →
      (p, d) ∈ s.files ∨ ∃ fo f, FOLDERS.contains fo = true ∧ req.file = some f ∧
        p = destPath fo f rb)
    ∧ (∀ (s : FsState) (files : List FileInput) (fo : Str) (rbs : List (List Nat))
        (writeOk : Str → Bool),
      fo ≠ [] → FOLDERS.contains fo = false →
      (uploadMultiple s files (some fo) rbs writeOk).1 = s ∧
      ∃ m, (uploadMultiple s files (some fo) rbs writeOk).2 = .err 400 m)
    ∧ (∀ (s : FsState) (files : List FileInput) (rbs : List (List Nat))
        (writeOk : Str → Bool) (p : Str) (d : List Nat),
      (p, d) ∈ (uploadMultiple s files none rbs writeOk).1.files →
      (p, d) ∈ s.files ∨ ∃ f rb, p = destPath "general".toList f rb) := by
  refine ⟨?_, ?_, ?_, ?_, ?_⟩
  · intro s file? fo rb writeOk hne hcon
    have hfo : folderOf (some fo) = fo := by simp [folderOf, hne]
    have hnm : fo ∉ FOLDERS := by simpa using hcon
    cases file? with
    | none =>
      exact ⟨by simp [uploadSingle], by simp [uploadSingle],
        "No file provided".toList, by simp [uploadSingle]⟩
    | some f =>
      cases hm : multerCheck f with
      | some m =>
        exact ⟨by simp [uploadSingle, hm], by simp [uploadSingle, hm],
          m, by simp [uploadSingle, hm]⟩
      | none =>
        exact ⟨by simp [uploadSingle, hm, hfo, hnm],
          by simp [uploadSingle, hm, hfo, hnm],
          "Invalid folder".toList, by simp [uploadSingle, hm, hfo, hnm]⟩
  · intro s f rb writeOk hm hw
    have hout := uploadSingle_success s ⟨some f, none⟩ f rb writeOk rfl hm (by rfl) hw
    exact ⟨by rw [hout]; rfl, by rw [hout]; rfl⟩
  · intro s req rb writeOk p d hmem
    cases hf : req.file with
    | none =>
      simp [uploadSingle, hf] at hmem
      exact Or.inl hmem
    | some f =>
      cases hm : multerCheck f with
      | some m =>
        simp [uploadSingle, hf, hm] at hmem
        exact Or.inl hmem
      | none =>
        by_cases hfo : FOLDERS.contains (folderOf req.folder) = true
        · by_cases hw : writeOk (destPath (folderOf req.folder) f rb) = true
          · rw [uploadSingle_success s req f rb writeOk hf hm hfo hw] at hmem
            simp only [writeFile, List.mem_cons] at hmem
            rcases hmem with heq | hfil
            · right
              rw [Prod.mk.injEq] at heq
              exact ⟨folderOf req.folder, f, hfo, rfl, heq.1⟩
            · exact Or.inl (List.mem_of_mem_filter hfil)
          · have hst : (uploadSingle s req rb writeOk).state = s := by
              simp only [uploadSingle, hf, hm]
              rw [if_pos hfo, if_neg hw]
            rw [hst] at hmem
            exact Or.inl hmem
        · have hst : (uploadSingle s req rb writeOk).state = s := by
            simp only [uploadSingle, hf, hm]
            rw [if_neg hfo]
          rw [hst] at hmem
          exact Or.inl hmem
  · intro s files fo rbs writeOk hne hcon
    have hfo : folderOf (some fo) = fo := by simp [folderOf, hne]
    have hnm : fo ∉ FOLDERS := by simpa using hcon
    by_cases hlen : files.length > 10
    · exact ⟨by simp [uploadMultiple, hlen],
        "Too many files".toList, by simp [uploadMultiple, hlen]⟩
    · cases hmc : multerCheckAll files with
      | some m =>
        exact ⟨by simp [uploadMultiple, hlen, hmc],
          m, by simp [uploadMultiple, hlen, hmc]⟩
      | none =>
        by_cases hz : files.length = 0
        · exact ⟨by simp [uploadMultiple, hlen, hmc, hz],
            "No files provided".toList, by simp [uploadMultiple, hlen, hmc, hz]⟩
        · exact ⟨by simp [uploadMultiple, hlen, hmc, hz, hfo, hnm],
            "Invalid folder".toList,
            by simp [uploadMultiple, hlen, hmc, hz, hfo, hnm]⟩
  · intro s files rbs writeOk p d hmem
    by_cases hlen : files.length > 10
    · simp [uploadMultiple, hlen] at hmem
      exact Or.inl hmem
    · cases hmc : multerCheckAll files with
      | some m =>
        simp [uploadMultiple, hlen, hmc] at hmem
        exact Or.inl hmem
      | none =>
        by_cases hz : files.length = 0
        · simp [uploadMultiple, hlen, hmc, hz] at hmem
          exact Or.inl hmem
        · have hgen : FOLDERS.contains (folderOf none) = true := by decide
          have hgen' : folderOf none ∈ FOLDERS := by decide
          have hred : (uploadMultiple s files none rbs writeOk).1 =
              (processFiles (folderOf none) writeOk s files rbs).1 := by
            cases hp : processFiles (folderOf none) writeOk s files rbs with
            | mk s2 r =>
              cases r with
              | some items => simp [uploadMultiple, hlen, hmc, hz, hgen, hgen', hp]
              | none => simp [uploadMultiple, hlen, hmc, hz, hgen, hgen', hp]
          rw [hred] at hmem
          exact processFiles_new_files (folderOf none) writeOk files rbs s p d hmem

/-- Witness for C6: the unknown folder `evil` is rejected on the otherwise
valid single-upload request. -/
theorem c6_witness :
    (("evil".toList : Str) ≠ []) ∧ FOLDERS.contains "evil".toList = false ∧
    ((uploadSingle ⟨[], []⟩ ⟨some ⟨"a.jpg".toList, "image/jpeg".toList, [1]⟩,
        some "evil".toList⟩ (List.replicate 16 0) (fun _ => true)).state =
      (⟨[], []⟩ : FsState) ∧
     (uploadSingle ⟨[], []⟩ ⟨some ⟨"a.jpg".toList, "image/jpeg".toList, [1]⟩,
        some "evil".toList⟩ (List.replicate 16 0) (fun _ => true)).ops = [] ∧
     ∃ m, (uploadSingle ⟨[], []⟩ ⟨some ⟨"a.jpg".toList, "image/jpeg".toList, [1]⟩,
        some "evil".toList⟩ (List.replicate 16 0) (fun _ => true)).resp = .err 400 m) :=
  ⟨by decide, by decide,
   c6_folder_taxonomy.1 ⟨[], []⟩ (some ⟨"a.jpg".toList, "image/jpeg".toList, [1]⟩)
     "evil".toList (List.replicate 16 0) (fun _ => true) (by decide) (by decide)⟩

/-- Concrete two-file batch used for C2 and C3. -/
def fileA : FileInput := ⟨"a.jpg".toList, "image/jpeg".toList, [10, 20]⟩

/-- Second file of the concrete batch. -/
def fileB : FileInput := ⟨"b.png".toList, "image/png".toList, [7, 7, 7]⟩

/-- Random bytes of the first `generateId()` call. -/
def rbA : List Nat := List.replicate 16 0

/-- Random bytes of the second `generateId()` call. -/
def rbB : List Nat := List.replicate 15 0 ++ [1]

/-- **C2 counterexample**: in the two-file batch `[fileA, fileB]` where the
write of `fileB` fails, the handler answers 500 ("whole batch aborted") but
`fileA`'s file is still stored under the storage root after the failure
response — the claim's "no file of that batch remains stored" is false. -/
theorem c2_counterexample :
    (uploadMultiple ⟨[], []⟩ [fileA, fileB] none [rbA, rbB]
        (fun p => !(p == destPath "general".toList fileB rbB))).2 =
      .err 500 "Failed to upload files".toList ∧
    (uploadMultiple ⟨[], []⟩ [fileA, fileB] none [rbA, rbB]
        (fun p => !(p == destPath "general".toList fileB rbB))).1.files.lookup
      (destPath "general".toList fileA rbA) = some fileA.buffer := by
  decide

/-- **C2 amended**: if writing any file of the batch fails, the batch is
aborted — the loop stops at the first failing file, no per-file results are
returned, and the response is a 500 error — but there is no rollback: the
final state is exactly the initial state plus the files successfully written
before the failing one, and (when their destination paths are distinct) each
of those earlier files remains stored with its bytes. -/
theorem c2_first_failure_aborts_batch_partial_commit (s : FsState)
    (folder? : Option Str) (pre : List FileInput) (rbsPre : List (List Nat))
    (f : FileInput) (rb : List Nat) (post : List FileInput)
    (rbsPost : List (List Nat)) (writeOk : Str → Bool)
    (hlen : pre.length = rbsPre.length)
    (hlim : ¬ (pre ++ f :: post).length > 10)
    (hmc : multerCheckAll (pre ++ f :: post) = none)
    (hfo : FOLDERS.contains (folderOf folder?) = true)
    (hok : ∀ q ∈ pre.zip rbsPre, writeOk (destPath (folderOf folder?) q.1 q.2) = true)
    (hfail : writeOk (destPath (folderOf folder?) f rb) = false) :
    uploadMultiple s (pre ++ f :: post) folder? (rbsPre ++ rb :: rbsPost) writeOk =
      (writeAll (folderOf folder?) s (pre.zip rbsPre),
       .err 500 "Failed to upload files".toList) ∧
    (((pre.zip rbsPre).map (fun q => destPath (folderOf folder?) q.1 q.2)).Nodup →
      ∀ q ∈ pre.zip rbsPre,
        (uploadMultiple s (pre ++ f :: post) folder?
            (rbsPre ++ rb :: rbsPost) writeOk).1.files.lookup
          (destPath (folderOf folder?) q.1 q.2) = some q.1.buffer) := by
  have hz : ¬ (pre ++ f :: post).length = 0 := by simp
  have hproc := processFiles_fail (folderOf folder?) writeOk pre rbsPre s f rb post
    rbsPost hlen hok hfail
  have hmain : uploadMultiple s (pre ++ f :: post) folder? (rbsPre ++ rb :: rbsPost) writeOk =
      (writeAll (folderOf folder?) s (pre.zip rbsPre),
       .err 500 "Failed to upload files".toList) := by
    unfold uploadMultiple
    rw [if_neg hlim, hmc]
    simp only [hz, if_false, hfo, if_true, hproc]
  refine ⟨hmain, ?_⟩
  intro hnd q hq
  rw [hmain]
  exact lookup_writeAll_of_nodup (folderOf folder?) (pre.zip rbsPre) s hnd q hq

/-- Witness for the amended C2 at the concrete failing batch. -/
theorem c2_amended_witness :
    ([fileA].length = [rbA].length) ∧
    multerCheckAll ([fileA] ++ fileB :: []) = none ∧
    (uploadMultiple ⟨[], []⟩ ([fileA] ++ fileB :: []) none ([rbA] ++ rbB :: [])
        (fun p => !(p == destPath "general".toList fileB rbB)) =
      (writeAll (folderOf none) ⟨[], []⟩ ([fileA].zip [rbA]),
       .err 500 "Failed to upload files".toList) ∧
     ((([fileA].zip [rbA]).map
         (fun q => destPath (folderOf none) q.1 q.2)).Nodup →
       ∀ q ∈ [fileA].zip [rbA],
         (uploadMultiple ⟨[], []⟩ ([fileA] ++ fileB :: []) none ([rbA] ++ rbB :: [])
             (fun p => !(p == destPath "general".toList fileB rbB))).1.files.lookup
           (destPath (folderOf none) q.1 q.2) = some q.1.buffer)) :=
  ⟨rfl, by decide,
   c2_first_failure_aborts_batch_partial_commit ⟨[], []⟩ none [fileA] [rbA]
     fileB rbB [] [] (fun p => !(p == destPath "general".toList fileB rbB))
     rfl (by decide) (by decide) (by decide) (by decide) (by decide)⟩

/-- **C3 counterexample**: in a concrete successful upload the trace contains
no rename at all, and its write targets the final destination path itself —
the bytes are not "first written to a temporary location and then renamed
into the final destination". -/
theorem c3_counterexample :
    ((uploadSingle ⟨[], []⟩ ⟨some fileA, none⟩ rbA (fun _ => true)).ops.all
      (fun op => ! op.isRename) = true) ∧
    FsOp.write (destPath "general".toList fileA rbA) fileA.buffer ∈
      (uploadSingle ⟨[], []⟩ ⟨some fileA, none⟩ rbA (fun _ => true)).ops := by
  decide

/-- **C3 amended**: the upload performs a single direct `writeFileSync` at
the final destination path — no temporary location and no rename: on a
successful write the trace is exactly that write followed by the `statSync`
of the same path, on a failed write the trace is the attempted write alone
and the handler answers 500, and in every case no operation of the trace is
a rename. -/
theorem c3_direct_write_no_rename (s : FsState) (req : UploadReq) (f : FileInput)
    (rb : List Nat) (writeOk : Str → Bool)
    (hf : req.file = some f) (hm : multerCheck f = none)
    (hfo : FOLDERS.contains (folderOf req.folder) = true) :
    (writeOk (destPath (folderOf req.folder) f rb) = true →
      (uploadSingle s req rb writeOk).ops =
        [.write (destPath (folderOf req.folder) f rb) f.buffer,
         .stat (destPath (folderOf req.folder) f rb)]) ∧
    (writeOk (destPath (folderOf req.folder) f rb) = false →
      (uploadSingle s req rb writeOk).ops =
        [.write (destPath (folderOf req.folder) f rb) f.buffer] ∧
      (uploadSingle s req rb writeOk).state = s ∧
      (uploadSingle s req rb writeOk).resp = .err 500 "Failed to upload file".toList) ∧
    ∀ op ∈ (uploadSingle s req rb writeOk).ops, op.isRename = false := by
  have hops : ∀ (b : Bool), writeOk (destPath (folderOf req.folder) f rb) = b →
      (uploadSingle s req rb writeOk) =
        (if b then
          ⟨writeFile s (destPath (folderOf req.folder) f rb) f.buffer,
           .ok (mediaUrl (folderOf req.folder) (generateId rb ++ chooseExt f.originalname))
               (mediaUrl (folderOf req.folder) (generateId rb ++ chooseExt f.originalname))
               (generateId rb ++ chooseExt f.originalname) (folderOf req.folder)
               (statSize (writeFile s (destPath (folderOf req.folder) f rb) f.buffer)
                 (destPath (folderOf req.folder) f rb))
               (if VIDEO_TYPES.contains f.mimetype then "video".toList else "image".toList)
               f.mimetype f.originalname,
           [.write (destPath (folderOf req.folder) f rb) f.buffer,
            .stat (destPath (folderOf req.folder) f rb)]⟩
         else
          ⟨s, .err 500 "Failed to upload file".toList,
           [.write (destPath (folderOf req.folder) f rb) f.buffer]⟩) := by
    intro b hb
    cases b with
    | true => rw [if_pos rfl]; exact uploadSingle_success s req f rb writeOk hf hm hfo hb
    | false =>
      rw [if_neg (by simp)]
      simp only [uploadSingle, hf, hm]
      rw [if_pos hfo, if_neg (by simp [hb])]
  refine ⟨?_, ?_, ?_⟩
  · intro hw
    rw [hops true hw]
    rfl
  · intro hw
    rw [hops false hw]
    exact ⟨rfl, rfl, rfl⟩
  · intro op hop
    have hall : (uploadSingle s req rb writeOk).ops.all (fun o => ! o.isRename) = true := by
      cases hw : writeOk (destPath (folderOf req.folder) f rb) with
      | true =>
        rw [hops true hw, if_pos rfl]
        rfl
      | false =>
        rw [hops false hw, if_neg (by decide : ¬ (false = true))]
        rfl
    have h2 := List.all_eq_true.mp hall op hop
    simpa using h2

/-- Witness for the amended C3 at a concrete upload. -/
theorem c3_amended_witness :
    ((⟨some fileA, none⟩ : UploadReq).file = some fileA) ∧
    multerCheck fileA = none ∧
    ((fun (_ : Str) => true) (destPath (folderOf none) fileA rbA) = true →
      (uploadSingle ⟨[], []⟩ ⟨some fileA, none⟩ rbA (fun _ => true)).ops =
        [.write (destPath (folderOf none) fileA rbA) fileA.buffer,
         .stat (destPath (folderOf none) fileA rbA)]) ∧
    ∀ op ∈ (uploadSingle ⟨[], []⟩ ⟨some fileA, none⟩ rbA (fun _ => true)).ops,
      op.isRename = false :=
  ⟨rfl, by decide,
   (c3_direct_write_no_rename ⟨[], []⟩ ⟨some fileA, none⟩ fileA rbA (fun _ => true)
     rfl (by decide) (by decide)).1,
   (c3_direct_write_no_rename ⟨[], []⟩ ⟨some fileA, none⟩ fileA rbA (fun _ => true)
     rfl (by decide) (by decide)).2.2⟩

/-- **C9**: in any filesystem state with well-formed (duplicate-free) file
paths, the stats aggregation reports, for every taxonomy folder whose
directory exists, exactly the number of direct entries of that directory and
the exact sum of their on-disk sizes; a taxonomy folder whose directory is
missing is reported as zero files and zero bytes; and the grand totals equal
the sums of the reported per-folder values. -/
theorem c9_stats_exact (s : FsState) (hnd : (s.files.map Prod.fst).Nodup) :
    (∀ fo ∈ FOLDERS,
      (statsHandler s).folders.lookup fo =
        some (if s.dirs.contains (pathJoin STORAGE_DIR fo) then
          (⟨specFolderCount s (pathJoin STORAGE_DIR fo),
            specFolderBytes s (pathJoin STORAGE_DIR fo)⟩ : FolderStat)
        else ⟨0, 0⟩)) ∧
    (statsHandler s).totalFiles = ((statsHandler s).folders.map (fun q => q.2.files)).sum ∧
    (statsHandler s).totalSize = ((statsHandler s).folders.map (fun q => q.2.size)).sum := by
  rw [statsHandler_eq]
  refine ⟨?_, ?_, ?_⟩
  · intro fo hfo
    rw [lookup_map_pairs (fun x => statsFolder s (pathJoin STORAGE_DIR x)) FOLDERS
      (by decide) fo hfo]
    by_cases hd : s.dirs.contains (pathJoin STORAGE_DIR fo) = true
    · rw [if_pos hd, statsFolder_present s _ hd hnd]
    · rw [if_neg hd]
      unfold statsFolder
      rw [if_neg hd]
  · rw [List.map_map]
    rfl
  · rw [List.map_map]
    rfl

/-- The concrete state used by the C9 witness: two files under `avatars`,
one under `general`, and the `news` directory missing. -/
def statsState : FsState :=
  ⟨[pathJoin STORAGE_DIR "avatars".toList, pathJoin STORAGE_DIR "general".toList],
   [("/data/uploads/avatars/a.jpg".toList, [1, 2]),
    ("/data/uploads/avatars/b.jpg".toList, [3, 4, 5]),
    ("/data/uploads/general/c.png".toList, [9])]⟩

/-- Witness for C9 at the concrete state `statsState`. -/
theorem c9_witness :
    ((statsState.files.map Prod.fst).Nodup) ∧
    ((∀ fo ∈ FOLDERS,
      (statsHandler statsState).folders.lookup fo =
        some (if statsState.dirs.contains (pathJoin STORAGE_DIR fo) then
          (⟨specFolderCount statsState (pathJoin STORAGE_DIR fo),
            specFolderBytes statsState (pathJoin STORAGE_DIR fo)⟩ : FolderStat)
        else ⟨0, 0⟩)) ∧
     (statsHandler statsState).totalFiles =
       ((statsHandler statsState).folders.map (fun q => q.2.files)).sum ∧
     (statsHandler statsState).totalSize =
       ((statsHandler statsState).folders.map (fun q => q.2.size)).sum) :=
  ⟨by decide, c9_stats_exact statsState (by decide)⟩

end MediaServer
